import Mathlib

/-!
Verification of the RahaSoldi inventory / point-of-sale dashboard.

The definitions below are a shallow embedding of the client-side logic of the
repository: the data model from `types.ts`, the sale-completion handler of
`App.tsx`, the cart logic of `SalesTerminal.tsx`, the financial aggregation of
`FinancialReport.tsx`, the stock-adjustment guard of `InventoryManager.tsx`,
and the CSV export of `ExpensesManager.tsx`.  JavaScript numbers are modelled
as exact rationals (`ℚ`), identifiers and timestamps as strings, and the
remote (Supabase) calls of the handlers as explicit event traces.
-/

namespace RahaSoldi

/-- `InventoryItem` from `types.ts`. -/
structure InventoryItem where
  id : String
  name : String
  category : String
  quantity : ℚ
  costPrice : ℚ
  salesPrice : ℚ
  lowStockThreshold : ℚ
  lastUpdated : String
deriving DecidableEq, Repr

/-- `SaleItem` from `types.ts`.  `FinancialReport.tsx` additionally reads an
optional `discount` field from sale items (as `i.discount || 0`), so the field
is modelled as an `Option ℚ` defaulting to `none`. -/
structure SaleItem where
  itemId : String
  name : String
  quantity : ℚ
  priceAtSale : ℚ
  costAtSale : ℚ
  discount : Option ℚ := none
deriving DecidableEq, Repr

/-- `SaleRecord` from `types.ts`. -/
structure SaleRecord where
  id : String
  items : List SaleItem
  totalAmount : ℚ
  totalProfit : ℚ
  timestamp : String
deriving DecidableEq, Repr

/-- `ExpenseRecord` (spec §3; consumed by `ExpensesManager.tsx` and
`FinancialReport.tsx`). -/
structure ExpenseRecord where
  id : String
  description : String
  amount : ℚ
  category : String
  date : String
  recordedAt : String
deriving DecidableEq, Repr

/-! ### Sale completion totals (`App.tsx`, `handleCompleteSale`) -/

/-- `items.reduce((sum, item) => sum + (item.quantity * item.priceAtSale), 0)`
from `App.tsx` line 126. -/
def saleTotalAmount (items : List SaleItem) : ℚ :=
  items.foldl (fun sum item => sum + item.quantity * item.priceAtSale) 0

/-- `items.reduce((sum, item) => sum + (item.quantity * item.costAtSale), 0)`
from `App.tsx` line 127. -/
def saleTotalCost (items : List SaleItem) : ℚ :=
  items.foldl (fun sum item => sum + item.quantity * item.costAtSale) 0

/-- Construction of `newSale` in `handleCompleteSale` (`App.tsx` lines
129-135); the generated UUID and the current timestamp are parameters. -/
def mkSaleRecord (saleId timestamp : String) (items : List SaleItem) : SaleRecord :=
  { id := saleId
    items := items
    totalAmount := saleTotalAmount items
    totalProfit := saleTotalAmount items - saleTotalCost items
    timestamp := timestamp }

/-! ### Cart logic (`SalesTerminal.tsx`) -/

/-- Quantity of the first cart line whose `itemId` matches, mirroring
`cart.findIndex(item => item.itemId === selectedProduct.id)` followed by the
read `cart[existingItemIndex].quantity` (`SalesTerminal.tsx` lines 43-47). -/
def firstCartQty (itemId : String) : List SaleItem → Option ℚ
  | [] => none
  | line :: rest =>
      if line.itemId = itemId then some line.quantity else firstCartQty itemId rest

/-- In-place increment of the first matching cart line, mirroring
`newCart[existingItemIndex].quantity += qtyInput` (`SalesTerminal.tsx` lines
52-54). -/
def bumpFirstCartLine (itemId : String) (qty : ℚ) : List SaleItem → List SaleItem
  | [] => []
  | line :: rest =>
      if line.itemId = itemId then { line with quantity := line.quantity + qty } :: rest
      else line :: bumpFirstCartLine itemId qty rest

/-- `addToCart` from `SalesTerminal.tsx` lines 30-70, restricted to its effect
on the cart state.  The guards are, in source order: no selected product,
non-positive quantity input, quantity input exceeding stock, and (for a
product already in the cart) merged quantity exceeding stock. -/
def addToCart (cart : List SaleItem) (selectedProduct : Option InventoryItem)
    (qtyInput : ℚ) : List SaleItem :=
  match selectedProduct with
  | none => cart
  | some sp =>
      if qtyInput ≤ 0 then cart
      else if sp.quantity < qtyInput then cart
      else
        match firstCartQty sp.id cart with
        | some existingQty =>
            if sp.quantity < existingQty + qtyInput then cart
            else bumpFirstCartLine sp.id qtyInput cart
        | none =>
            cart ++ [{ itemId := sp.id
                       name := sp.name
                       quantity := qtyInput
                       priceAtSale := sp.salesPrice
                       costAtSale := sp.costPrice }]

/-- `handleCheckout` from `SalesTerminal.tsx` lines 78-83: on an empty cart it
returns without emitting a sale; otherwise it passes the cart to
`onCompleteSale` and clears it.  The first component is the cart handed to
`onCompleteSale` (if any), the second the cart state after the call. -/
def handleCheckout (cart : List SaleItem) : Option (List SaleItem) × List SaleItem :=
  if cart.length = 0 then (none, cart) else (some cart, [])

/-! ### Generic fold-to-sum lemma -/

/-- A left fold accumulating `f` over a list is the accumulator plus the sum of
the mapped list. -/
theorem foldl_add_eq_sum {α : Type} (f : α → ℚ) :
    ∀ (l : List α) (a : ℚ), l.foldl (fun s x => s + f x) a = a + (l.map f).sum
  | [], a => by simp
  | x :: l, a => by
      rw [List.foldl_cons, foldl_add_eq_sum f l (a + f x)]
      simp [add_assoc]

/-- C1: sale completion computes `totalAmount` as the sum of
`quantity × priceAtSale` over the cart and `totalProfit` as that total minus
the sum of `quantity × costAtSale`, records both in the created `SaleRecord`,
and on the empty cart both totals are `0`. -/
theorem sale_totals_correct (saleId timestamp : String) (items : List SaleItem) :
    (mkSaleRecord saleId timestamp items).totalAmount
        = (items.map (fun i => i.quantity * i.priceAtSale)).sum
    ∧ (mkSaleRecord saleId timestamp items).totalProfit
        = (items.map (fun i => i.quantity * i.priceAtSale)).sum
            - (items.map (fun i => i.quantity * i.costAtSale)).sum
    ∧ (mkSaleRecord saleId timestamp []).totalAmount = 0
    ∧ (mkSaleRecord saleId timestamp []).totalProfit = 0 := by
  refine ⟨?_, ?_, ?_, ?_⟩ <;>
    simp [mkSaleRecord, saleTotalAmount, saleTotalCost, foldl_add_eq_sum]

/-! ### Lemmas about the cart merge -/

/-- Bumping the first matching cart line adds the entered quantity to the
quantity found there. -/
theorem firstCartQty_bump (tid : String) (q : ℚ) :
    ∀ (cart : List SaleItem) (c : ℚ), firstCartQty tid cart = some c →
      firstCartQty tid (bumpFirstCartLine tid q cart) = some (c + q) := by
  intro cart
  induction cart with
  | nil => intro c h; simp [firstCartQty] at h
  | cons line rest ih =>
      intro c h
      by_cases hl : line.itemId = tid
      · simp [firstCartQty, hl] at h
        simp [bumpFirstCartLine, hl, firstCartQty, h]
      · simp only [firstCartQty, hl, if_false] at h
        simp only [bumpFirstCartLine, hl, if_false, firstCartQty]
        exact ih c h

/-- Bumping the first matching cart line does not change the number of cart
lines for the product. -/
theorem bump_filter_length (tid : String) (q : ℚ) :
    ∀ cart : List SaleItem,
      ((bumpFirstCartLine tid q cart).filter (fun l => l.itemId == tid)).length
        = (cart.filter (fun l => l.itemId == tid)).length := by
  intro cart
  induction cart with
  | nil => rfl
  | cons line rest ih =>
      by_cases hl : line.itemId = tid
      · simp [bumpFirstCartLine, hl]
      · simp [bumpFirstCartLine, hl, ih]

/-- C2: for a selected product already present in the cart (its first matching
line holding quantity `c`), `addToCart` rejects the merge — leaving the cart
unchanged — whenever `c` plus the entered quantity exceeds the product's
current stock, and otherwise (for a positive entered quantity within stock)
merges the entered quantity into that existing line, keeping the number of
cart lines for the product unchanged. -/
theorem addToCart_merge_behavior (cart : List SaleItem) (sp : InventoryItem) (q c : ℚ)
    (hfind : firstCartQty sp.id cart = some c) :
    (sp.quantity < c + q → addToCart cart (some sp) q = cart)
    ∧ (0 < q → 0 ≤ c → c + q ≤ sp.quantity →
        addToCart cart (some sp) q = bumpFirstCartLine sp.id q cart
        ∧ firstCartQty sp.id (addToCart cart (some sp) q) = some (c + q)
        ∧ ((addToCart cart (some sp) q).filter (fun l => l.itemId == sp.id)).length
            = (cart.filter (fun l => l.itemId == sp.id)).length) := by
  constructor
  · intro hover
    by_cases hq : q ≤ 0
    · simp [addToCart, hq]
    · by_cases hstock : sp.quantity < q
      · simp [addToCart, hq, hstock]
      · simp [addToCart, hq, hstock, hfind, hover]
  · intro hpos hc hle
    have hq : ¬ q ≤ 0 := not_le.mpr hpos
    have hstock : ¬ sp.quantity < q := not_lt.mpr (le_trans (by linarith) hle)
    have hover : ¬ sp.quantity < c + q := not_lt.mpr hle
    have hcart : addToCart cart (some sp) q = bumpFirstCartLine sp.id q cart := by
      simp [addToCart, hq, hstock, hfind, hover]
    refine ⟨hcart, ?_, ?_⟩
    · rw [hcart]; exact firstCartQty_bump sp.id q cart c hfind
    · rw [hcart]; exact bump_filter_length sp.id q cart

/-- Concrete product used by witnesses: id `A`, stock 10. -/
def spW : InventoryItem :=
  { id := "A", name := "Widget", category := "Cat", quantity := 10
    costPrice := 4, salesPrice := 7, lowStockThreshold := 5, lastUpdated := "t0" }

/-- Concrete cart used by witnesses: one line for product `A` with quantity 2. -/
def cartW : List SaleItem :=
  [{ itemId := "A", name := "Widget", quantity := 2, priceAtSale := 7, costAtSale := 4 }]

/-- Witness for C2 at a concrete cart: merging 3 into the existing line of
quantity 2 (stock 10) succeeds, while adding 9 is rejected. -/
theorem addToCart_merge_behavior_witness :
    (addToCart cartW (some spW) 3 = bumpFirstCartLine spW.id 3 cartW
      ∧ firstCartQty spW.id (addToCart cartW (some spW) 3) = some (2 + 3)
      ∧ ((addToCart cartW (some spW) 3).filter (fun l => l.itemId == spW.id)).length
          = (cartW.filter (fun l => l.itemId == spW.id)).length)
    ∧ addToCart cartW (some spW) 9 = cartW :=
  ⟨(addToCart_merge_behavior cartW spW 3 2 (by decide)).2
      (by norm_num) (by norm_num) (by norm_num [spW]),
   (addToCart_merge_behavior cartW spW 9 2 (by decide)).1 (by norm_num [spW])⟩

/-- C9: every rejection path of `addToCart` (no product selected, entered
quantity non-positive, entered quantity exceeding stock, merged total
exceeding stock) leaves the cart unchanged, and `handleCheckout` on the empty
cart performs no sale and leaves the cart unchanged. -/
theorem cart_rejection_atomic (cart : List SaleItem) (sp : InventoryItem) (q c : ℚ) :
    addToCart cart none q = cart
    ∧ (q ≤ 0 → addToCart cart (some sp) q = cart)
    ∧ (sp.quantity < q → addToCart cart (some sp) q = cart)
    ∧ (firstCartQty sp.id cart = some c → sp.quantity < c + q →
        addToCart cart (some sp) q = cart)
    ∧ handleCheckout [] = (none, []) := by
  refine ⟨rfl, ?_, ?_, ?_, rfl⟩
  · intro hq; simp [addToCart, hq]
  · intro hstock
    by_cases hq : q ≤ 0
    · simp [addToCart, hq]
    · simp [addToCart, hq, hstock]
  · intro hfind hover
    by_cases hq : q ≤ 0
    · simp [addToCart, hq]
    · by_cases hstock : sp.quantity < q
      · simp [addToCart, hq, hstock]
      · simp [addToCart, hq, hstock, hfind, hover]

/-- Witness for C9 at concrete carts: a non-positive quantity, an over-stock
quantity, and an over-stock merge are all rejected without touching the cart. -/
theorem cart_rejection_atomic_witness :
    addToCart cartW (some spW) 0 = cartW
    ∧ addToCart cartW (some spW) 11 = cartW
    ∧ addToCart cartW (some spW) 9 = cartW :=
  ⟨(cart_rejection_atomic cartW spW 0 0).2.1 (by norm_num),
   (cart_rejection_atomic cartW spW 11 0).2.2.1 (by norm_num [spW]),
   (cart_rejection_atomic cartW spW 9 2).2.2.2.1 (by decide) (by norm_num [spW])⟩

/-! ### Optimistic inventory update (`App.tsx`, `handleCompleteSale` lines 137-151) -/

/-- The update applied to the matched inventory row for one cart line:
`{ ...item, quantity: item.quantity - saleItem.quantity, lastUpdated: now }`
(`App.tsx` lines 142-146). -/
def sellLine (now : String) (si : SaleItem) (p : InventoryItem) : InventoryItem :=
  { p with quantity := p.quantity - si.quantity, lastUpdated := now }

/-- Replace the first list entry whose `id` matches by `f` of it, mirroring
`findIndex` followed by an indexed write (`App.tsx` lines 140-147); when no
entry matches, the list is unchanged. -/
def updateFirstItem (targetId : String) (f : InventoryItem → InventoryItem) :
    List InventoryItem → List InventoryItem
  | [] => []
  | p :: rest =>
      if p.id = targetId then f p :: rest else p :: updateFirstItem targetId f rest

/-- The optimistic inventory state built by the `items.forEach` loop of
`handleCompleteSale` (`App.tsx` lines 138-148). -/
def optimisticInventory (now : String) (inventory : List InventoryItem)
    (items : List SaleItem) : List InventoryItem :=
  items.foldl (fun inv si => updateFirstItem si.itemId (sellLine now si) inv) inventory

/-- Pointwise description of the optimistic update, following the words of the
claim: an item matched by a cart line is decremented by that line's quantity
(with `lastUpdated` refreshed), every other item is untouched. -/
def cartEffect (now : String) (items : List SaleItem) (p : InventoryItem) : InventoryItem :=
  match items.find? (fun si => si.itemId == p.id) with
  | some si => sellLine now si p
  | none => p

/-- With no cart lines, the pointwise effect is the identity. -/
theorem cartEffect_nil (now : String) (p : InventoryItem) : cartEffect now [] p = p := rfl

/-- Mapping the empty-cart effect changes nothing. -/
theorem map_cartEffect_nil (now : String) :
    ∀ inv : List InventoryItem, List.map (cartEffect now []) inv = inv
  | [] => rfl
  | p :: ps => by rw [List.map_cons, map_cartEffect_nil now ps, cartEffect_nil]

/-- `updateFirstItem` preserves the list of ids when `f` preserves the id. -/
theorem updateFirstItem_map_id (tid : String) (f : InventoryItem → InventoryItem)
    (hf : ∀ p, (f p).id = p.id) :
    ∀ inv : List InventoryItem,
      (updateFirstItem tid f inv).map (fun p => p.id) = inv.map (fun p => p.id) := by
  intro inv
  induction inv with
  | nil => rfl
  | cons p rest ih =>
      by_cases hp : p.id = tid
      · simp [updateFirstItem, hp, hf]
      · simp [updateFirstItem, hp, ih]

/-- Mapping `g` over an update of the first matching entry of an id-distinct
list is the pointwise conditional map. -/
theorem map_updateFirstItem (tid : String) (f g : InventoryItem → InventoryItem) :
    ∀ inv : List InventoryItem, (inv.map (fun p => p.id)).Nodup →
      (updateFirstItem tid f inv).map g
        = inv.map (fun p => if p.id = tid then g (f p) else g p) := by
  intro inv
  induction inv with
  | nil => intro _; rfl
  | cons p rest ih =>
      intro hn
      rw [List.map_cons, List.nodup_cons] at hn
      by_cases hp : p.id = tid
      · simp only [updateFirstItem, hp, if_true, List.map_cons]
        congr 1
        refine (List.map_congr_left ?_).symm
        intro p' hp'
        have : p'.id ≠ tid := by
          intro hcontra
          exact hn.1 (by rw [hp, ← hcontra]; exact List.mem_map_of_mem _ hp')
        simp [this]
      · simp only [updateFirstItem, hp, if_false, List.map_cons, ih hn.2]

/-- One cart line commutes with the pointwise effect of the remaining lines,
provided the line's product id does not recur among them. -/
theorem cartEffect_cons (now : String) (si : SaleItem) (rest : List SaleItem)
    (hsi : si.itemId ∉ rest.map (fun l => l.itemId)) (p : InventoryItem) :
    (if p.id = si.itemId then cartEffect now rest (sellLine now si p)
     else cartEffect now rest p) = cartEffect now (si :: rest) p := by
  by_cases hp : p.id = si.itemId
  · have hhead : (si.itemId == p.id) = true := by simp [hp]
    have hnone : rest.find? (fun l => l.itemId == (sellLine now si p).id) = none := by
      refine List.find?_eq_none.mpr ?_
      intro x hx
      simp only [sellLine, beq_iff_eq]
      intro hcontra
      exact hsi (by rw [← hp, ← hcontra]; exact List.mem_map_of_mem _ hx)
    simp [cartEffect, hp, hhead, hnone]
  · have hhead : (si.itemId == p.id) = false := by
      simp [beq_iff_eq]
      intro hcontra
      exact hp hcontra.symm
    simp [cartEffect, hp, List.find?_cons, hhead]

/-- The optimistic update of sale completion is the pointwise `cartEffect` map
whenever inventory ids and cart line ids are duplicate-free. -/
theorem optimisticInventory_eq_map (now : String) :
    ∀ (items : List SaleItem) (inventory : List InventoryItem),
      (inventory.map (fun p => p.id)).Nodup →
      (items.map (fun l => l.itemId)).Nodup →
      optimisticInventory now inventory items = inventory.map (cartEffect now items) := by
  intro items
  induction items with
  | nil =>
      intro inventory _ _
      simpa [optimisticInventory] using (map_cartEffect_nil now inventory).symm
  | cons si rest ih =>
      intro inventory hinv hitems
      rw [List.map_cons, List.nodup_cons] at hitems
      have hstep : optimisticInventory now inventory (si :: rest)
          = optimisticInventory now (updateFirstItem si.itemId (sellLine now si) inventory) rest := by
        simp [optimisticInventory]
      have hids : ((updateFirstItem si.itemId (sellLine now si) inventory).map
          (fun p => p.id)).Nodup := by
        rw [updateFirstItem_map_id si.itemId (sellLine now si) (fun p => rfl)]
        exact hinv
      rw [hstep, ih _ hids hitems.2,
        map_updateFirstItem si.itemId _ _ inventory hinv]
      exact List.map_congr_left (fun p _ => cartEffect_cons now si rest hitems.1 p)

/-- C4: with duplicate-free inventory ids and cart line ids, the optimistic
update of sale completion maps each inventory item matched by a cart line to
the same item with its quantity decreased by exactly that line's quantity and
`lastUpdated` refreshed (all other fields kept), leaves every unmatched item
unchanged, preserves length, and cart lines matching no inventory item change
nothing. -/
theorem optimistic_update_frame (now : String) (inventory : List InventoryItem)
    (items : List SaleItem)
    (hinv : (inventory.map (fun p => p.id)).Nodup)
    (hitems : (items.map (fun l => l.itemId)).Nodup) :
    optimisticInventory now inventory items = inventory.map (cartEffect now items)
    ∧ (optimisticInventory now inventory items).length = inventory.length
    ∧ (∀ p si, items.find? (fun l => l.itemId == p.id) = some si →
        cartEffect now items p
          = { p with quantity := p.quantity - si.quantity, lastUpdated := now })
    ∧ (∀ p, items.find? (fun l => l.itemId == p.id) = none → cartEffect now items p = p) := by
  have hmap := optimisticInventory_eq_map now items inventory hinv hitems
  refine ⟨hmap, by rw [hmap, List.length_map], ?_, ?_⟩
  · intro p si hfind
    simp [cartEffect, hfind, sellLine]
  · intro p hfind
    simp [cartEffect, hfind]

/-- Concrete inventory used by witnesses: products `A` (stock 10) and `B`
(stock 5). -/
def invW : List InventoryItem :=
  [{ id := "A", name := "Widget", category := "Cat", quantity := 10
     costPrice := 4, salesPrice := 7, lowStockThreshold := 5, lastUpdated := "t0" },
   { id := "B", name := "Gadget", category := "Cat", quantity := 5
     costPrice := 2, salesPrice := 3, lowStockThreshold := 2, lastUpdated := "t0" }]

/-- Witness for C4: selling 2 units of `A` decrements only `A`. -/
theorem optimistic_update_frame_witness :
    optimisticInventory "t1" invW cartW
      = invW.map (cartEffect "t1" cartW)
    ∧ (optimisticInventory "t1" invW cartW).length = invW.length :=
  ⟨(optimistic_update_frame "t1" invW cartW (by decide) (by decide)).1,
   (optimistic_update_frame "t1" invW cartW (by decide) (by decide)).2.1⟩

/-! ### Stock adjustment guard (`InventoryManager.tsx`, `handleStockAdjustment`) -/

/-- `handleStockAdjustment` from `InventoryManager.tsx` lines 95-106, keyed on
the parse outcome: the argument models `parseInt(adjustQty)` (`none` for
`NaN`), the result is the quantity passed to `onUpdate` (`none` when the form
alerts and performs no update). -/
def handleStockAdjustment (parsedQty : Option Int) : Option Int :=
  match parsedQty with
  | some newQty => if 0 ≤ newQty then some newQty else none
  | none => none

/-- C7: when every inventory quantity is non-negative and every cart line's
quantity is at most the stock of the item it matches (ids duplicate-free, as
the terminal's guards maintain), the optimistic decrement of sale completion
leaves every quantity non-negative; and the stock-adjustment handler only
accepts a parsed quantity that is a number `≥ 0`. -/
theorem inventory_nonneg_invariant (now : String) (inventory : List InventoryItem)
    (items : List SaleItem)
    (hinv : (inventory.map (fun p => p.id)).Nodup)
    (hitems : (items.map (fun l => l.itemId)).Nodup)
    (hnn : ∀ p ∈ inventory, 0 ≤ p.quantity)
    (hbound : ∀ si ∈ items, ∀ p ∈ inventory, p.id = si.itemId → si.quantity ≤ p.quantity) :
    (∀ p ∈ optimisticInventory now inventory items, 0 ≤ p.quantity)
    ∧ (∀ (parsed : Option Int) (q : Int), handleStockAdjustment parsed = some q → 0 ≤ q) := by
  constructor
  · rw [optimisticInventory_eq_map now items inventory hinv hitems]
    intro p hp
    obtain ⟨p0, hp0, rfl⟩ := List.mem_map.mp hp
    rcases hfind : items.find? (fun si => si.itemId == p0.id) with _ | si
    · rw [cartEffect, hfind]
      exact hnn p0 hp0
    · rw [cartEffect, hfind]
      have hmem : si ∈ items := List.mem_of_find?_eq_some hfind
      have hpred : si.itemId = p0.id := by
        have := List.find?_some hfind
        simpa using this
      have hle : si.quantity ≤ p0.quantity := hbound si hmem p0 hp0 hpred.symm
      simp only [sellLine]
      exact sub_nonneg.mpr hle
  · intro parsed q h
    match parsed with
    | none => simp [handleStockAdjustment] at h
    | some n =>
        by_cases hn : 0 ≤ n
        · simp [handleStockAdjustment, hn] at h
          omega
        · simp [handleStockAdjustment, hn] at h

/-- Witness for C7: with stock 10/5 and a cart selling 2 of `A`, every
resulting quantity is non-negative, and a parsed adjustment of `-1` is
rejected while `4` is accepted. -/
theorem inventory_nonneg_invariant_witness :
    (∀ p ∈ optimisticInventory "t1" invW cartW, 0 ≤ p.quantity)
    ∧ (∀ (parsed : Option Int) (q : Int), handleStockAdjustment parsed = some q → 0 ≤ q) :=
  inventory_nonneg_invariant "t1" invW cartW (by decide) (by decide)
    (by intro p hp; fin_cases hp <;> norm_num [invW])
    (by
      intro si hsi p hp hid
      fin_cases hsi
      fin_cases hp
      · norm_num
      · exact absurd hid (by decide))

/-! ### Remote-call traces of the `App.tsx` handlers

Each handler is modelled as the ordered list of observable actions it
performs: Supabase writes, `console.error` logging, blocking `alert`, and the
full-state refetch `fetchData()`.  Supabase calls resolve with an error value
rather than throwing, so a call's failure enters the control flow only where
the source checks it with `if (error) throw error`; the corresponding failure
flags are the parameters below. -/

/-- One observable action of a handler. -/
inductive RemoteEvent where
  | insertSale (sale : SaleRecord) : RemoteEvent
  | insertItem (item : InventoryItem) : RemoteEvent
  | updateItem (id : String) : RemoteEvent
  | updateQuantity (id : String) (newQty : ℚ) : RemoteEvent
  | deleteItem (id : String) : RemoteEvent
  | logError (msg : String) : RemoteEvent
  | alertUser (msg : String) : RemoteEvent
  | refetchAll : RemoteEvent
deriving DecidableEq, Repr

/-- Is the event a Supabase write? -/
def isRemoteWrite : RemoteEvent → Bool
  | .insertSale _ => true
  | .insertItem _ => true
  | .updateItem _ => true
  | .updateQuantity _ _ => true
  | .deleteItem _ => true
  | _ => false

/-- Is the event a `console.error` log? -/
def isLogEvent : RemoteEvent → Bool
  | .logError _ => true
  | _ => false

/-- Is the event a blocking alert? -/
def isAlertEvent : RemoteEvent → Bool
  | .alertUser _ => true
  | _ => false

/-- Is the event the full-state refetch? -/
def isRefetchEvent : RemoteEvent → Bool
  | .refetchAll => true
  | _ => false

/-- Is the event the sale-record insert? -/
def isInsertSaleEvent : RemoteEvent → Bool
  | .insertSale _ => true
  | _ => false

/-- Is the event a per-line inventory quantity update? -/
def isUpdateQtyEvent : RemoteEvent → Bool
  | .updateQuantity _ _ => true
  | _ => false

/-- A trace surfaces a failure when it logs it, alerts the user and refetches
the remote state. -/
def surfacesFailure (tr : List RemoteEvent) : Prop :=
  tr.any isLogEvent = true ∧ tr.any isAlertEvent = true ∧ tr.any isRefetchEvent = true

/-- `handleAddItem` from `App.tsx` lines 68-86: insert, and on a failing
insert log, alert and refetch. -/
def handleAddItemFlow (newItem : InventoryItem) (insertFails : Bool) : List RemoteEvent :=
  RemoteEvent.insertItem newItem ::
    (if insertFails then
      [RemoteEvent.logError "Error adding item:",
       RemoteEvent.alertUser "Failed to save item to database.",
       RemoteEvent.refetchAll]
     else [])

/-- `handleUpdateItem` from `App.tsx` lines 88-107. -/
def handleUpdateItemFlow (id : String) (updateFails : Bool) : List RemoteEvent :=
  RemoteEvent.updateItem id ::
    (if updateFails then
      [RemoteEvent.logError "Error updating item:",
       RemoteEvent.alertUser "Failed to update item in database.",
       RemoteEvent.refetchAll]
     else [])

/-- `handleDeleteItem` from `App.tsx` lines 109-123 (after the user confirms
the deletion). -/
def handleDeleteItemFlow (id : String) (deleteFails : Bool) : List RemoteEvent :=
  RemoteEvent.deleteItem id ::
    (if deleteFails then
      [RemoteEvent.logError "Error deleting item:",
       RemoteEvent.alertUser "Failed to delete item from database.",
       RemoteEvent.refetchAll]
     else [])

/-- The loop of `handleCompleteSale` (`App.tsx` lines 161-170): for each cart
line whose `itemId` is found in the pre-sale `inventory` state, one quantity
update carrying `currentItem.quantity - item.quantity`.  The source never
destructures or checks the result of these `update` calls, so their error
outcomes cannot influence the trace. -/
def completeSaleUpdates (inventory : List InventoryItem) (items : List SaleItem) :
    List RemoteEvent :=
  items.filterMap (fun saleItem =>
    (inventory.find? (fun i => i.id == saleItem.itemId)).map
      (fun currentItem =>
        RemoteEvent.updateQuantity saleItem.itemId (currentItem.quantity - saleItem.quantity)))

/-- `handleCompleteSale` from `App.tsx` lines 125-176: build the sale record,
apply the optimistic inventory decrement, then insert the sale and — only when
that insert succeeds (its error is the only one checked) — issue one
inventory update per matched cart line.  `updateFails` models the error
outcomes of those update calls; the source ignores them, so the parameter does
not occur in the result. -/
def handleCompleteSale (saleId now : String) (inventory : List InventoryItem)
    (items : List SaleItem) (saleInsertFails : Bool) (_updateFails : Nat → Bool) :
    SaleRecord × List InventoryItem × List RemoteEvent :=
  let newSale := mkSaleRecord saleId now items
  (newSale,
   optimisticInventory now inventory items,
   RemoteEvent.insertSale newSale ::
     (if saleInsertFails then
       [RemoteEvent.logError "Error processing sale:",
        RemoteEvent.alertUser "Error saving sale to database. Please check connection.",
        RemoteEvent.refetchAll]
      else completeSaleUpdates inventory items))

/-- Concrete sale cart and failing-update oracle for the C5 counterexample. -/
def allUpdatesFail : Nat → Bool := fun _ => true

/-- C5 counterexample: completing the sale of 2 units of `A` with the sale
insert succeeding but the inventory-quantity update failing issues exactly one
such update, yet the trace contains no log, no alert and no refetch — the
failing remote write is not caught, surfaced, or recovered. -/
theorem remote_failure_surfacing_counterexample :
    ((handleCompleteSale "s1" "t1" invW cartW false allUpdatesFail).2.2.countP
        isUpdateQtyEvent) = 1
    ∧ ¬ surfacesFailure (handleCompleteSale "s1" "t1" invW cartW false allUpdatesFail).2.2 := by
  constructor
  · decide
  · intro h
    exact absurd h.1 (by decide)

/-- C5 (amended): failures of the inventory insert, the item update, the item
delete and the sale-record insert are each caught and handled by exactly one
log, one alert and one refetch, with the failing write attempted exactly once
(no retry); the per-line inventory update calls of sale completion never
check their error result, so their outcomes cannot alter the trace. -/
theorem remote_failure_recovery (item : InventoryItem) (id saleId now : String)
    (inventory : List InventoryItem) (items : List SaleItem)
    (updFail updFail' : Nat → Bool) :
    handleAddItemFlow item true
      = [RemoteEvent.insertItem item, RemoteEvent.logError "Error adding item:",
         RemoteEvent.alertUser "Failed to save item to database.", RemoteEvent.refetchAll]
    ∧ handleUpdateItemFlow id true
      = [RemoteEvent.updateItem id, RemoteEvent.logError "Error updating item:",
         RemoteEvent.alertUser "Failed to update item in database.", RemoteEvent.refetchAll]
    ∧ handleDeleteItemFlow id true
      = [RemoteEvent.deleteItem id, RemoteEvent.logError "Error deleting item:",
         RemoteEvent.alertUser "Failed to delete item from database.", RemoteEvent.refetchAll]
    ∧ (handleCompleteSale saleId now inventory items true updFail).2.2
      = [RemoteEvent.insertSale (mkSaleRecord saleId now items),
         RemoteEvent.logError "Error processing sale:",
         RemoteEvent.alertUser "Error saving sale to database. Please check connection.",
         RemoteEvent.refetchAll]
    ∧ ((handleAddItemFlow item true).countP isRemoteWrite = 1
        ∧ (handleUpdateItemFlow id true).countP isRemoteWrite = 1
        ∧ (handleDeleteItemFlow id true).countP isRemoteWrite = 1
        ∧ ((handleCompleteSale saleId now inventory items true updFail).2.2.countP
            isRemoteWrite) = 1)
    ∧ (handleCompleteSale saleId now inventory items false updFail).2.2
      = (handleCompleteSale saleId now inventory items false updFail').2.2 := by
  refine ⟨rfl, rfl, rfl, rfl, ⟨?_, ?_, ?_, ?_⟩, rfl⟩ <;>
    simp [handleAddItemFlow, handleUpdateItemFlow, handleDeleteItemFlow,
      handleCompleteSale, List.countP_cons, isRemoteWrite]

/-- The loop issues exactly one update per cart line matched in inventory. -/
theorem completeSaleUpdates_length (inventory : List InventoryItem)
    (items : List SaleItem) :
    (completeSaleUpdates inventory items).length
      = items.countP (fun si => (inventory.find? (fun i => i.id == si.itemId)).isSome) := by
  induction items with
  | nil => rfl
  | cons si rest ih =>
      simp only [completeSaleUpdates, List.filterMap_cons] at ih ⊢
      rcases hfind : inventory.find? (fun i => i.id == si.itemId) with _ | ci
      · simp [hfind, List.countP_cons, ih]
      · simp [hfind, List.countP_cons, ih]

/-- C6: with the sale insert succeeding, sale completion issues first the
single sale-record insert and then, in cart order, exactly one inventory
quantity update per cart line whose `itemId` matches an inventory item; no
inventory update precedes the sale insert, and the trace contains exactly one
insert. -/
theorem sale_write_order (saleId now : String) (inventory : List InventoryItem)
    (items : List SaleItem) (updFail : Nat → Bool) (_hne : items ≠ []) :
    (handleCompleteSale saleId now inventory items false updFail).2.2
      = RemoteEvent.insertSale (mkSaleRecord saleId now items)
          :: completeSaleUpdates inventory items
    ∧ (completeSaleUpdates inventory items).length
        = (items.countP (fun si => (inventory.find? (fun i => i.id == si.itemId)).isSome))
    ∧ (∀ e ∈ completeSaleUpdates inventory items, isUpdateQtyEvent e = true)
    ∧ ((handleCompleteSale saleId now inventory items false updFail).2.2.countP
        isInsertSaleEvent) = 1 := by
  have hall : ∀ e ∈ completeSaleUpdates inventory items, isUpdateQtyEvent e = true := by
    intro e he
    obtain ⟨si, _, hsi⟩ := List.mem_filterMap.mp he
    obtain ⟨ci, _, rfl⟩ := Option.map_eq_some'.mp hsi
    rfl
  refine ⟨rfl, completeSaleUpdates_length inventory items, hall, ?_⟩
  have hzero : (completeSaleUpdates inventory items).countP isInsertSaleEvent = 0 := by
    rw [List.countP_eq_zero]
    intro e he
    have h := hall e he
    cases e <;> simp_all [isUpdateQtyEvent, isInsertSaleEvent]
  simp [handleCompleteSale, List.countP_cons, hzero, isInsertSaleEvent]

/-- Witness for C6 at the concrete cart: the trace is the sale insert followed
by the single matched update. -/
theorem sale_write_order_witness :
    (handleCompleteSale "s1" "t1" invW cartW false allUpdatesFail).2.2
      = RemoteEvent.insertSale (mkSaleRecord "s1" "t1" cartW)
          :: completeSaleUpdates invW cartW
    ∧ (completeSaleUpdates invW cartW).length
        = (cartW.countP (fun si => (invW.find? (fun i => i.id == si.itemId)).isSome)) :=
  ⟨(sale_write_order "s1" "t1" invW cartW allUpdatesFail (by decide)).1,
   (sale_write_order "s1" "t1" invW cartW allUpdatesFail (by decide)).2.1⟩

/-! ### Summary metrics (`FinancialReport.tsx`, `metrics`, lines 81-111) -/

/-- `filteredSales.reduce((acc, s) => acc + s.totalAmount, 0)`. -/
def totalRevenue (filteredSales : List SaleRecord) : ℚ :=
  filteredSales.foldl (fun acc s => acc + s.totalAmount) 0

/-- `filteredSales.reduce((acc, s) => acc + s.totalProfit, 0)`. -/
def totalGrossProfit (filteredSales : List SaleRecord) : ℚ :=
  filteredSales.foldl (fun acc s => acc + s.totalProfit) 0

/-- `filteredExpenses.reduce((acc, e) => acc + e.amount, 0)`. -/
def totalExpensesOf (filteredExpenses : List ExpenseRecord) : ℚ :=
  filteredExpenses.foldl (fun acc e => acc + e.amount) 0

/-- `netIncome = totalGrossProfit - totalExpenses`. -/
def netIncomeOf (fs : List SaleRecord) (fe : List ExpenseRecord) : ℚ :=
  totalGrossProfit fs - totalExpensesOf fe

/-- `grossMargin = totalRevenue > 0 ? (totalGrossProfit / totalRevenue) * 100 : 0`
(`FinancialReport.tsx` line 92). -/
def grossMargin (fs : List SaleRecord) : ℚ :=
  if 0 < totalRevenue fs then totalGrossProfit fs / totalRevenue fs * 100 else 0

/-- `netMargin = totalRevenue > 0 ? (netIncome / totalRevenue) * 100 : 0`
(`FinancialReport.tsx` line 93). -/
def netMargin (fs : List SaleRecord) (fe : List ExpenseRecord) : ℚ :=
  if 0 < totalRevenue fs then netIncomeOf fs fe / totalRevenue fs * 100 else 0

/-- `expenseRatio = totalRevenue > 0 ? (totalExpenses / totalRevenue) * 100 : 0`
(`FinancialReport.tsx` line 94). -/
def expenseRatio (fs : List SaleRecord) (fe : List ExpenseRecord) : ℚ :=
  if 0 < totalRevenue fs then totalExpensesOf fe / totalRevenue fs * 100 else 0

/-- C8: the margin percentages are total: for positive total revenue they are
the three ratio formulas, and for zero total revenue (for example an empty
range) each is `0`, so the division is only ever performed with a positive
denominator. -/
theorem margins_guarded (fs : List SaleRecord) (fe : List ExpenseRecord) :
    (0 < totalRevenue fs →
        grossMargin fs = totalGrossProfit fs / totalRevenue fs * 100
        ∧ netMargin fs fe = netIncomeOf fs fe / totalRevenue fs * 100
        ∧ expenseRatio fs fe = totalExpensesOf fe / totalRevenue fs * 100)
    ∧ (totalRevenue fs = 0 →
        grossMargin fs = 0 ∧ netMargin fs fe = 0 ∧ expenseRatio fs fe = 0) := by
  constructor
  · intro hpos
    exact ⟨if_pos hpos, if_pos hpos, if_pos hpos⟩
  · intro hzero
    have hneg : ¬ 0 < totalRevenue fs := by rw [hzero]; exact lt_irrefl 0
    exact ⟨if_neg hneg, if_neg hneg, if_neg hneg⟩

/-- Concrete sale used by the C8 witness: revenue 10, profit 4. -/
def saleW : SaleRecord :=
  { id := "s1", items := [], totalAmount := 10, totalProfit := 4, timestamp := "2024-01-02T10:00:00" }

/-- Concrete expense used by witnesses. -/
def expW : ExpenseRecord :=
  { id := "e1", description := "Rent", amount := 3, category := "Rent"
    date := "2024-01-02", recordedAt := "2024-01-02T09:00:00" }

/-- Witness for C8: one sale of revenue 10 exercises the positive branch and
the empty range the zero branch. -/
theorem margins_guarded_witness :
    (grossMargin [saleW] = totalGrossProfit [saleW] / totalRevenue [saleW] * 100
      ∧ netMargin [saleW] [expW] = netIncomeOf [saleW] [expW] / totalRevenue [saleW] * 100
      ∧ expenseRatio [saleW] [expW] = totalExpensesOf [expW] / totalRevenue [saleW] * 100)
    ∧ (grossMargin [] = 0 ∧ netMargin [] [expW] = 0 ∧ expenseRatio [] [expW] = 0) :=
  ⟨(margins_guarded [saleW] [expW]).1
      (by norm_num [totalRevenue, saleW]),
   (margins_guarded [] [expW]).2 (by norm_num [totalRevenue])⟩

/-! ### Financial aggregation (`FinancialReport.tsx`, `chartData`, lines 42-78) -/

/-- `dateStr.split('T')[0]` (`FinancialReport.tsx` line 46): the calendar-day
part of an ISO timestamp. -/
def getDateKey (dateStr : String) : String :=
  match dateStr.splitOn "T" with
  | [] => dateStr
  | part :: _ => part

/-- One entry of the `dataMap` of `chartData`. -/
structure DayBucket where
  date : String
  revenue : ℚ
  expense : ℚ
  grossProfit : ℚ
  netIncome : ℚ
  discount : ℚ
deriving DecidableEq, Repr

/-- The zeroed bucket inserted by `dataMap.set(key, { date: key, ... 0 })`. -/
def emptyBucket (d : String) : DayBucket :=
  { date := d, revenue := 0, expense := 0, grossProfit := 0, netIncome := 0, discount := 0 }

/-- JavaScript `Map` upsert with insertion-order iteration: if a bucket with
the key exists it is mutated in place by `f`, otherwise a fresh zeroed bucket
is appended at the end and mutated (`if (!dataMap.has(key)) dataMap.set(...)`
followed by mutation of `dataMap.get(key)`). -/
def upsert (key : String) (f : DayBucket → DayBucket) : List DayBucket → List DayBucket
  | [] => [f (emptyBucket key)]
  | b :: rest => if b.date = key then f b :: rest else b :: upsert key f rest

/-- `sale.items.reduce((sum, i) => sum + (i.discount || 0), 0)`
(`FinancialReport.tsx` line 57). -/
def saleDiscount (s : SaleRecord) : ℚ :=
  s.items.foldl (fun sum i => sum + i.discount.getD 0) 0

/-- The mutation applied to a day bucket for one sale (`FinancialReport.tsx`
lines 59-63). -/
def applySale (s : SaleRecord) (b : DayBucket) : DayBucket :=
  { b with
      revenue := b.revenue + s.totalAmount
      grossProfit := b.grossProfit + s.totalProfit
      discount := b.discount + saleDiscount s
      netIncome := b.netIncome + s.totalProfit }

/-- The mutation applied to a day bucket for one expense (`FinancialReport.tsx`
lines 71-73). -/
def applyExpense (e : ExpenseRecord) (b : DayBucket) : DayBucket :=
  { b with
      expense := b.expense + e.amount
      netIncome := b.netIncome - e.amount }

/-- The `dataMap` of `chartData` in iteration order: all filtered sales are
processed, then all filtered expenses. -/
def buildBuckets (filteredSales : List SaleRecord)
    (filteredExpenses : List ExpenseRecord) : List DayBucket :=
  let afterSales := filteredSales.foldl
    (fun m s => upsert (getDateKey s.timestamp) (applySale s) m) []
  filteredExpenses.foldl (fun m e => upsert (getDateKey e.date) (applyExpense e) m) afterSales

/-- `chartData`: the map values sorted ascending by date key
(`FinancialReport.tsx` line 77). -/
def chartData (filteredSales : List SaleRecord)
    (filteredExpenses : List ExpenseRecord) : List DayBucket :=
  (buildBuckets filteredSales filteredExpenses).mergeSort
    (fun a b => decide (a.date ≤ b.date))

/-- Upserting rewrites the key list to itself, or appends the new key. -/
theorem upsert_map_date (key : String) (f : DayBucket → DayBucket)
    (hd : ∀ b, (f b).date = b.date) :
    ∀ m : List DayBucket,
      (upsert key f m).map (fun b => b.date)
        = if key ∈ m.map (fun b => b.date) then m.map (fun b => b.date)
          else m.map (fun b => b.date) ++ [key] := by
  intro m
  induction m with
  | nil => simp [upsert, hd, emptyBucket]
  | cons b rest ih =>
      by_cases hb : b.date = key
      · simp [upsert, hb, hd]
      · have hbk : ¬ key = b.date := fun h => hb h.symm
        by_cases hkey : key ∈ rest.map (fun b => b.date)
        · simp [upsert, hb, hkey, ih, hbk]
        · simp [upsert, hb, hkey, ih, hbk]

/-- Upserting with a mutation that adds `δ` to the `g`-component adds `δ` to
the total of the `g`-components, provided `g` vanishes on fresh buckets. -/
theorem upsert_map_sum (key : String) (f : DayBucket → DayBucket)
    (g : DayBucket → ℚ) (hg0 : g (emptyBucket key) = 0) (δ : ℚ)
    (hδ : ∀ b, g (f b) = g b + δ) :
    ∀ m : List DayBucket, ((upsert key f m).map g).sum = (m.map g).sum + δ := by
  intro m
  induction m with
  | nil => simp [upsert, hδ, hg0]
  | cons b rest ih =>
      by_cases hb : b.date = key
      · simp [upsert, hb, hδ]
        ring
      · simp [upsert, hb, ih]
        ring

/-- Folding records through `upsert` adds each record's contribution to the
total of the `g`-components. -/
theorem foldl_upsert_sum {ρ : Type} (keyOf : ρ → String)
    (app : ρ → DayBucket → DayBucket) (g : DayBucket → ℚ)
    (hg0 : ∀ d, g (emptyBucket d) = 0) (δ : ρ → ℚ)
    (hδ : ∀ r b, g (app r b) = g b + δ r) :
    ∀ (records : List ρ) (m : List DayBucket),
      ((records.foldl (fun acc r => upsert (keyOf r) (app r) acc) m).map g).sum
        = (m.map g).sum + (records.map δ).sum := by
  intro records
  induction records with
  | nil => intro m; simp
  | cons r rest ih =>
      intro m
      rw [List.foldl_cons, ih,
        upsert_map_sum (keyOf r) (app r) g (hg0 (keyOf r)) (δ r) (hδ r)]
      simp [add_assoc]

/-- Folding records through `upsert` keeps the key list duplicate-free. -/
theorem foldl_upsert_nodup {ρ : Type} (keyOf : ρ → String)
    (app : ρ → DayBucket → DayBucket) (hd : ∀ r b, (app r b).date = b.date) :
    ∀ (records : List ρ) (m : List DayBucket),
      (m.map (fun b => b.date)).Nodup →
      ((records.foldl (fun acc r => upsert (keyOf r) (app r) acc) m).map
        (fun b => b.date)).Nodup := by
  intro records
  induction records with
  | nil => intro m hm; simpa using hm
  | cons r rest ih =>
      intro m hm
      rw [List.foldl_cons]
      refine ih _ ?_
      rw [upsert_map_date (keyOf r) (app r) (hd r) m]
      by_cases hkey : keyOf r ∈ m.map (fun b => b.date)
      · simpa [hkey] using hm
      · simp only [hkey, if_false]
        rw [List.nodup_append]
        exact ⟨hm, List.nodup_singleton _, by simpa using hkey⟩

/-- Folding records through `upsert` preserves existing keys. -/
theorem foldl_upsert_mem {ρ : Type} (keyOf : ρ → String)
    (app : ρ → DayBucket → DayBucket) (hd : ∀ r b, (app r b).date = b.date) :
    ∀ (records : List ρ) (m : List DayBucket) (k : String),
      k ∈ m.map (fun b => b.date) →
      k ∈ (records.foldl (fun acc r => upsert (keyOf r) (app r) acc) m).map
        (fun b => b.date) := by
  intro records
  induction records with
  | nil => intro m k hk; simpa using hk
  | cons r rest ih =>
      intro m k hk
      rw [List.foldl_cons]
      refine ih _ k ?_
      rw [upsert_map_date (keyOf r) (app r) (hd r) m]
      by_cases hkey : keyOf r ∈ m.map (fun b => b.date)
      · simpa [hkey] using hk
      · simp only [hkey, if_false]
        exact List.mem_append_left _ hk

/-- Every folded record's key appears in the resulting key list. -/
theorem foldl_upsert_key_mem {ρ : Type} (keyOf : ρ → String)
    (app : ρ → DayBucket → DayBucket) (hd : ∀ r b, (app r b).date = b.date) :
    ∀ (records : List ρ) (m : List DayBucket) (r : ρ), r ∈ records →
      keyOf r ∈ (records.foldl (fun acc r => upsert (keyOf r) (app r) acc) m).map
        (fun b => b.date) := by
  intro records
  induction records with
  | nil => intro m r hr; simp at hr
  | cons r0 rest ih =>
      intro m r hr
      rw [List.foldl_cons]
      rcases List.mem_cons.mp hr with hr0 | hrrest
      · subst hr0
        refine foldl_upsert_mem keyOf app hd rest _ (keyOf r) ?_
        rw [upsert_map_date (keyOf r) (app r) (hd r) m]
        by_cases hkey : keyOf r ∈ m.map (fun b => b.date)
        · simp [hkey]
        · simp [hkey]
      · exact ih _ r hrrest

/-- Mapping every element to zero sums to zero. -/
theorem sum_map_zero_q {σ : Type} : ∀ l : List σ, (l.map (fun _ => (0 : ℚ))).sum = 0
  | [] => rfl
  | x :: l => by simp [sum_map_zero_q l]

/-- C3: the financial aggregation gives each record exactly one calendar-day
bucket — bucket dates are duplicate-free and every sale's and expense's date
key appears among them — and the bucket totals of revenue, expense and gross
profit each sum to the corresponding total over the unbucketed filtered
records. -/
theorem financial_bucketing (filteredSales : List SaleRecord)
    (filteredExpenses : List ExpenseRecord) :
    ((chartData filteredSales filteredExpenses).map (fun b => b.date)).Nodup
    ∧ (∀ s ∈ filteredSales, getDateKey s.timestamp
        ∈ (chartData filteredSales filteredExpenses).map (fun b => b.date))
    ∧ (∀ e ∈ filteredExpenses, getDateKey e.date
        ∈ (chartData filteredSales filteredExpenses).map (fun b => b.date))
    ∧ ((chartData filteredSales filteredExpenses).map (fun b => b.revenue)).sum
        = (filteredSales.map (fun s => s.totalAmount)).sum
    ∧ ((chartData filteredSales filteredExpenses).map (fun b => b.grossProfit)).sum
        = (filteredSales.map (fun s => s.totalProfit)).sum
    ∧ ((chartData filteredSales filteredExpenses).map (fun b => b.expense)).sum
        = (filteredExpenses.map (fun e => e.amount)).sum := by
  have hperm : List.Perm (chartData filteredSales filteredExpenses)
      (buildBuckets filteredSales filteredExpenses) :=
    List.mergeSort_perm _ _
  have hdS : ∀ (s : SaleRecord) (b : DayBucket), (applySale s b).date = b.date :=
    fun _ _ => rfl
  have hdE : ∀ (e : ExpenseRecord) (b : DayBucket), (applyExpense e b).date = b.date :=
    fun _ _ => rfl
  have hbuild : buildBuckets filteredSales filteredExpenses
      = filteredExpenses.foldl (fun m e => upsert (getDateKey e.date) (applyExpense e) m)
          (filteredSales.foldl
            (fun m s => upsert (getDateKey s.timestamp) (applySale s) m) []) := rfl
  have hn1 : ((filteredSales.foldl
      (fun m s => upsert (getDateKey s.timestamp) (applySale s) m) []).map
        (fun b => b.date)).Nodup :=
    foldl_upsert_nodup _ applySale hdS filteredSales [] (by simp)
  have hn2 : ((buildBuckets filteredSales filteredExpenses).map (fun b => b.date)).Nodup := by
    rw [hbuild]
    exact foldl_upsert_nodup _ applyExpense hdE filteredExpenses _ hn1
  have hmemS : ∀ s ∈ filteredSales, getDateKey s.timestamp
      ∈ (buildBuckets filteredSales filteredExpenses).map (fun b => b.date) := by
    intro s hs
    rw [hbuild]
    exact foldl_upsert_mem _ applyExpense hdE filteredExpenses _ _
      (foldl_upsert_key_mem (fun s => getDateKey s.timestamp) applySale hdS
        filteredSales [] s hs)
  have hmemE : ∀ e ∈ filteredExpenses, getDateKey e.date
      ∈ (buildBuckets filteredSales filteredExpenses).map (fun b => b.date) := by
    intro e he
    rw [hbuild]
    exact foldl_upsert_key_mem (fun e => getDateKey e.date) applyExpense hdE
      filteredExpenses _ e he
  have hrev : ((buildBuckets filteredSales filteredExpenses).map (fun b => b.revenue)).sum
      = (filteredSales.map (fun s => s.totalAmount)).sum := by
    rw [hbuild,
      foldl_upsert_sum _ applyExpense (fun b => b.revenue) (fun _ => rfl)
        (fun _ => 0) (fun e b => by simp [applyExpense]) filteredExpenses _,
      foldl_upsert_sum _ applySale (fun b => b.revenue) (fun _ => rfl)
        (fun s => s.totalAmount) (fun s b => rfl) filteredSales []]
    simp [sum_map_zero_q]
  have hgp : ((buildBuckets filteredSales filteredExpenses).map (fun b => b.grossProfit)).sum
      = (filteredSales.map (fun s => s.totalProfit)).sum := by
    rw [hbuild,
      foldl_upsert_sum _ applyExpense (fun b => b.grossProfit) (fun _ => rfl)
        (fun _ => 0) (fun e b => by simp [applyExpense]) filteredExpenses _,
      foldl_upsert_sum _ applySale (fun b => b.grossProfit) (fun _ => rfl)
        (fun s => s.totalProfit) (fun s b => rfl) filteredSales []]
    simp [sum_map_zero_q]
  have hexp : ((buildBuckets filteredSales filteredExpenses).map (fun b => b.expense)).sum
      = (filteredExpenses.map (fun e => e.amount)).sum := by
    rw [hbuild,
      foldl_upsert_sum _ applyExpense (fun b => b.expense) (fun _ => rfl)
        (fun e => e.amount) (fun e b => rfl) filteredExpenses _,
      foldl_upsert_sum _ applySale (fun b => b.expense) (fun _ => rfl)
        (fun _ => 0) (fun s b => by simp [applySale]) filteredSales []]
    simp [sum_map_zero_q]
  refine ⟨((hperm.map (fun b => b.date)).nodup_iff).mpr hn2, ?_, ?_, ?_, ?_, ?_⟩
  · intro s hs
    exact ((hperm.map (fun b => b.date)).mem_iff).mpr (hmemS s hs)
  · intro e he
    exact ((hperm.map (fun b => b.date)).mem_iff).mpr (hmemE e he)
  · rw [(hperm.map (fun b => b.revenue)).sum_eq, hrev]
  · rw [(hperm.map (fun b => b.grossProfit)).sum_eq, hgp]
  · rw [(hperm.map (fun b => b.expense)).sum_eq, hexp]

/-- Witness for C3's per-record membership at a concrete sale and expense. -/
theorem financial_bucketing_witness :
    getDateKey saleW.timestamp ∈ (chartData [saleW] [expW]).map (fun b => b.date)
    ∧ getDateKey expW.date ∈ (chartData [saleW] [expW]).map (fun b => b.date) :=
  ⟨(financial_bucketing [saleW] [expW]).2.1 saleW (by decide),
   (financial_bucketing [saleW] [expW]).2.2.1 expW (by decide)⟩

/-! ### Expense filtering and CSV export (`ExpensesManager.tsx`) -/

/-- Does the first list start with the second?  (helper for substring
search). -/
def charsStartWith : List Char → List Char → Bool
  | [], _ => true
  | _ :: _, [] => false
  | a :: as, b :: bs => a == b && charsStartWith as bs

/-- Does the haystack contain the needle as a contiguous run? -/
def charsContain (needle : List Char) : List Char → Bool
  | [] => needle.isEmpty
  | b :: bs => charsStartWith needle (b :: bs) || charsContain needle bs

/-- `hay.includes(needle)` of JavaScript strings. -/
def strIncludes (hay needle : String) : Bool :=
  charsContain needle.data hay.data

/-- The filter predicate of `filteredExpenses` (`ExpensesManager.tsx` lines
52-66): case-insensitive search over description and category, category
filter, and inclusive date-range filter.  `dateVal` abstracts
`new Date(s).getTime()`; the empty string disables a bound (JS truthiness). -/
def filterMatches (dateVal : String → Int)
    (searchTerm selectedCategory startDate endDate : String)
    (exp : ExpenseRecord) : Bool :=
  let matchesSearch :=
    strIncludes exp.description.toLower searchTerm.toLower
      || strIncludes exp.category.toLower searchTerm.toLower
  let matchesCategory := selectedCategory == "All" || exp.category == selectedCategory
  let matchesDate :=
    (startDate == "" || decide (dateVal startDate ≤ dateVal exp.date))
      && (endDate == "" || decide (dateVal exp.date ≤ dateVal endDate))
  matchesSearch && matchesCategory && matchesDate

/-- `filteredExpenses` (`ExpensesManager.tsx` lines 51-68): filter, then a
stable sort newest-first by `new Date(e.date).getTime()`. -/
def filteredExpensesOf (dateVal : String → Int)
    (searchTerm selectedCategory startDate endDate : String)
    (expenses : List ExpenseRecord) : List ExpenseRecord :=
  (expenses.filter (filterMatches dateVal searchTerm selectedCategory startDate endDate)).mergeSort
    (fun a b => decide (dateVal b.date ≤ dateVal a.date))

/-- One step of `description.replace(/"/g, '""')`: every double-quote
character is doubled, all other characters pass through. -/
def escQuoteStep (c : Char) (acc : List Char) : List Char :=
  if c = '"' then '"' :: '"' :: acc else c :: acc

/-- `e.description.replace(/"/g, '""')` (`ExpensesManager.tsx` line 120),
character by character. -/
def csvEscapeQuotes (s : String) : String :=
  String.mk (s.data.foldr escQuoteStep [])

/-- Digit rendering of a natural number, little-step model of JavaScript
number-to-string conversion for non-negative integers. -/
def natToStrAux : Nat → Nat → List Char
  | 0, _ => []
  | fuel+1, n =>
      if n = 0 then [] else natToStrAux fuel (n / 10) ++ [Char.ofNat (48 + n % 10)]

/-- Decimal rendering of a natural number. -/
def natToStr (n : Nat) : String :=
  if n = 0 then "0" else String.mk (natToStrAux n n)

/-- Two-digit zero-padded rendering of `m < 100`. -/
def pad2 (m : Nat) : String :=
  if m < 10 then "0" ++ natToStr m else natToStr m

/-- Model of `amount.toFixed(2)` (`ExpensesManager.tsx` line 122): the amount
rounded to the nearest hundredth and rendered with a sign, an integer part,
a decimal point, and exactly two fractional digits. -/
def toFixed2 (q : ℚ) : String :=
  let n : Int := round (q * 100)
  (if n < 0 then "-" else "") ++ natToStr (n.natAbs / 100) ++ "." ++ pad2 (n.natAbs % 100)

/-- The header row `['Date', 'Description', 'Category', 'Amount', 'ID']`
joined by commas (`ExpensesManager.tsx` lines 117, 127). -/
def csvHeader : String :=
  String.intercalate "," ["Date", "Description", "Category", "Amount", "ID"]

/-- One data row of the export (`ExpensesManager.tsx` lines 118-124, 128):
date, quoted escaped description, category, two-decimal amount, id, joined by
commas. -/
def csvRow (e : ExpenseRecord) : String :=
  String.intercalate ","
    [e.date, "\"" ++ csvEscapeQuotes e.description ++ "\"", e.category,
     toFixed2 e.amount, e.id]

/-- `handleExportCSV` (`ExpensesManager.tsx` lines 116-139): the joined CSV
content handed to the downloaded blob. -/
def handleExportCSV (dateVal : String → Int)
    (searchTerm selectedCategory startDate endDate : String)
    (expenses : List ExpenseRecord) : String :=
  String.intercalate "\n"
    (csvHeader ::
      (filteredExpensesOf dateVal searchTerm selectedCategory startDate endDate expenses).map
        csvRow)

/-- Characters `0`-`9` are digits. -/
theorem digit_of_lt10 : ∀ d : Nat, d < 10 → (Char.ofNat (48 + d)).isDigit = true := by decide

/-- Every character emitted by the digit renderer is a digit. -/
theorem natToStrAux_digits : ∀ (fuel n : Nat), (natToStrAux fuel n).all Char.isDigit = true
  | 0, _ => rfl
  | fuel+1, n => by
      rw [natToStrAux]
      by_cases h : n = 0
      · simp [h]
      · have hd : n % 10 < 10 := Nat.mod_lt _ (by norm_num)
        simp [h, List.all_append, natToStrAux_digits fuel (n / 10), digit_of_lt10 _ hd]

/-- Decimal renderings consist of digits only. -/
theorem natToStr_digits (n : Nat) : (natToStr n).data.all Char.isDigit = true := by
  rw [natToStr]
  by_cases h : n = 0
  · simp [h]
  · simp [h, natToStrAux_digits]

/-- The padded fraction always has exactly two characters. -/
theorem pad2_len : ∀ m : Nat, m < 100 → (pad2 m).length = 2 := by decide

/-- The padded fraction consists of digits. -/
theorem pad2_digits : ∀ m : Nat, m < 100 → (pad2 m).data.all Char.isDigit = true := by decide

/-- A digit is not a decimal point. -/
theorem digit_not_dot (c : Char) (h : c.isDigit = true) : (c == '.') = false := by
  cases hb : (c == '.')
  · rfl
  · exfalso
    have hc : c = '.' := by simpa using hb
    subst hc
    simp at h

/-- Escaping doubles exactly the double-quote characters. -/
theorem escQuote_count (l : List Char) :
    (l.foldr escQuoteStep []).count '"' = 2 * l.count '"' := by
  induction l with
  | nil => rfl
  | cons c l ih =>
      by_cases hc : c = '"'
      · simp [escQuoteStep, hc, List.count_cons, ih]
        ring
      · simp [escQuoteStep, hc, List.count_cons, ih]

/-- Escaping leaves all characters other than the double quote untouched. -/
theorem escQuote_filter (l : List Char) :
    (l.foldr escQuoteStep []).filter (fun c => !(c == '"'))
      = l.filter (fun c => !(c == '"')) := by
  induction l with
  | nil => rfl
  | cons c l ih =>
      by_cases hc : c = '"'
      · simp [escQuoteStep, hc, List.filter, ih]
      · have hb : (c == '"') = false := by simpa using hc
        simp [escQuoteStep, hc, List.filter, hb, ih]

/-- The rendered amount always has a decimal point followed by exactly two
digits, and no decimal point before it. -/
theorem toFixed2_decimals (q : ℚ) :
    ∃ pre fr : String, toFixed2 q = pre ++ "." ++ fr ∧ fr.length = 2
      ∧ fr.data.all Char.isDigit = true
      ∧ pre.data.all (fun c => !(c == '.')) = true := by
  have hm : (round (q * 100)).natAbs % 100 < 100 := Nat.mod_lt _ (by norm_num)
  refine ⟨(if round (q * 100) < 0 then "-" else "")
      ++ natToStr ((round (q * 100)).natAbs / 100),
    pad2 ((round (q * 100)).natAbs % 100), rfl, pad2_len _ hm, pad2_digits _ hm, ?_⟩
  have hdig := natToStr_digits ((round (q * 100)).natAbs / 100)
  rw [List.all_eq_true] at hdig
  have hnd : (natToStr ((round (q * 100)).natAbs / 100)).data.all
      (fun c => !(c == '.')) = true := by
    rw [List.all_eq_true]
    intro c hc
    simpa using digit_not_dot c (hdig c hc)
  by_cases hneg : round (q * 100) < 0
  · rw [if_pos hneg, List.all_eq_true]
    intro c hc
    simp only [String.data_append] at hc
    rcases List.mem_append.mp hc with hsign | hnat
    · simp at hsign
      subst hsign
      decide
    · rw [List.all_eq_true] at hnd
      exact hnd c hnat
  · rw [if_neg hneg, List.all_eq_true]
    intro c hc
    simp only [String.data_append] at hc
    rcases List.mem_append.mp hc with hsign | hnat
    · simp at hsign
    · rw [List.all_eq_true] at hnd
      exact hnd c hnat

/-- C10: the exported CSV is exactly the header line followed, in filtered
order, by one line per filtered expense; the filtered order is newest first
by date value; each row joins date, the quote-escaped quoted description,
category, two-decimal amount and id with commas; escaping doubles every
double quote and changes nothing else; and the amount field always carries
exactly two decimal places. -/
theorem csv_export_format (dateVal : String → Int)
    (searchTerm selectedCategory startDate endDate : String)
    (expenses : List ExpenseRecord) :
    handleExportCSV dateVal searchTerm selectedCategory startDate endDate expenses
      = String.intercalate "\n" (csvHeader ::
          (filteredExpensesOf dateVal searchTerm selectedCategory startDate endDate
            expenses).map csvRow)
    ∧ List.Pairwise (fun a b => dateVal b.date ≤ dateVal a.date)
        (filteredExpensesOf dateVal searchTerm selectedCategory startDate endDate expenses)
    ∧ (∀ e : ExpenseRecord, csvRow e
        = e.date ++ "," ++ ("\"" ++ csvEscapeQuotes e.description ++ "\"") ++ ","
            ++ e.category ++ "," ++ toFixed2 e.amount ++ "," ++ e.id)
    ∧ (∀ s : String, (csvEscapeQuotes s).data.count '"' = 2 * s.data.count '"'
        ∧ (csvEscapeQuotes s).data.filter (fun c => !(c == '"'))
            = s.data.filter (fun c => !(c == '"')))
    ∧ (∀ q : ℚ, ∃ pre fr : String, toFixed2 q = pre ++ "." ++ fr ∧ fr.length = 2
        ∧ fr.data.all Char.isDigit = true
        ∧ pre.data.all (fun c => !(c == '.')) = true) := by
  refine ⟨rfl, ?_, ?_, ?_, toFixed2_decimals⟩
  · have h := @List.sorted_mergeSort ExpenseRecord
      (fun a b => decide (dateVal b.date ≤ dateVal a.date))
      (by intro a b c h1 h2; simp at h1 h2 ⊢; omega)
      (by intro a b; simp [Int.le_total])
      (expenses.filter (filterMatches dateVal searchTerm selectedCategory startDate endDate))
    exact h.imp (fun hab => by simpa using hab)
  · intro e
    simp [csvRow, String.intercalate, String.intercalate.go]
  · intro s
    exact ⟨escQuote_count s.data, escQuote_filter s.data⟩

end RahaSoldi
